import Mathlib

/-!
# Verification of the Planarizer mesh operator

A shallow embedding of `mesh_planarizer.py` (Blender add-on "Planarizer",
version 0.2.2).  Vertex coordinates, normals and the 3D cursor are modelled
exactly over `ℚ`; Python exceptions are modelled with `Except PyErr`;
`bmesh` vertex/edge/face identity is modelled by list indices into the mesh.

`mathutils.Vector.normalize` divides a vector by its Euclidean length, which
is irrational in general; wherever the source normalizes a vector in place
(`convert_vectors_to_plane`, `getPlaneFromAverage`) the embedding keeps the
pre-normalization vector and says so in the definition's doc comment.  Every
property settled here is invariant under that final positive rescaling.
Likewise, the source compares Euclidean *lengths* (`(a - b).length`); the
embedding compares squared lengths, which yields identical comparison
results since `Real.sqrt` is strictly monotone on nonnegative reals
(lemma `distSq_lt_iff_dist_lt` below makes this precise).
-/

/-- A 3D vector with exact rational coordinates (models `mathutils.Vector`). -/
structure Vec3 where
  x : ℚ
  y : ℚ
  z : ℚ
deriving DecidableEq, Repr

@[ext] theorem Vec3.ext {a b : Vec3}
    (hx : a.x = b.x) (hy : a.y = b.y) (hz : a.z = b.z) : a = b := by
  cases a; cases b; simp_all


instance : Zero Vec3 := ⟨⟨0, 0, 0⟩⟩

instance : Add Vec3 := ⟨fun a b => ⟨a.x + b.x, a.y + b.y, a.z + b.z⟩⟩

instance : Sub Vec3 := ⟨fun a b => ⟨a.x - b.x, a.y - b.y, a.z - b.z⟩⟩

instance : SMul ℚ Vec3 := ⟨fun c v => ⟨c * v.x, c * v.y, c * v.z⟩⟩

theorem Vec3.add_def (a b : Vec3) : a + b = ⟨a.x + b.x, a.y + b.y, a.z + b.z⟩ := rfl

theorem Vec3.sub_def (a b : Vec3) : a - b = ⟨a.x - b.x, a.y - b.y, a.z - b.z⟩ := rfl

theorem Vec3.smul_def (c : ℚ) (v : Vec3) : c • v = ⟨c * v.x, c * v.y, c * v.z⟩ := rfl

theorem Vec3.zero_def : (0 : Vec3) = ⟨0, 0, 0⟩ := rfl

@[simp] theorem Vec3.add_x (a b : Vec3) : (a + b).x = a.x + b.x := rfl
@[simp] theorem Vec3.add_y (a b : Vec3) : (a + b).y = a.y + b.y := rfl
@[simp] theorem Vec3.add_z (a b : Vec3) : (a + b).z = a.z + b.z := rfl
@[simp] theorem Vec3.sub_x (a b : Vec3) : (a - b).x = a.x - b.x := rfl
@[simp] theorem Vec3.sub_y (a b : Vec3) : (a - b).y = a.y - b.y := rfl
@[simp] theorem Vec3.sub_z (a b : Vec3) : (a - b).z = a.z - b.z := rfl
@[simp] theorem Vec3.smul_x (c : ℚ) (v : Vec3) : (c • v).x = c * v.x := rfl
@[simp] theorem Vec3.smul_y (c : ℚ) (v : Vec3) : (c • v).y = c * v.y := rfl
@[simp] theorem Vec3.smul_z (c : ℚ) (v : Vec3) : (c • v).z = c * v.z := rfl
@[simp] theorem Vec3.zero_x : (0 : Vec3).x = 0 := rfl
@[simp] theorem Vec3.zero_y : (0 : Vec3).y = 0 := rfl
@[simp] theorem Vec3.zero_z : (0 : Vec3).z = 0 := rfl

/-- `mathutils.Vector.dot`. -/
def dot (a b : Vec3) : ℚ := a.x * b.x + a.y * b.y + a.z * b.z

/-- `mathutils.Vector.cross`. -/
def cross (a b : Vec3) : Vec3 :=
  ⟨a.y * b.z - a.z * b.y, a.z * b.x - a.x * b.z, a.x * b.y - a.y * b.x⟩

/-- Squared Euclidean length, `v.length ** 2` / `v.magnitude ** 2`. -/
def normSq (v : Vec3) : ℚ := dot v v

/-- Squared distance between two points.  The source compares `(a-b).length`;
comparing squared lengths gives the same ordering (see
`distSq_lt_iff_dist_lt`). -/
def distSq (a b : Vec3) : ℚ := normSq (a - b)

/-- Sum of a list of vectors. -/
def vsum : List Vec3 → Vec3
  | [] => 0
  | v :: vs => v + vsum vs

/-- Justification for working with squared lengths: for nonnegative exact
values, the comparison of Euclidean lengths (`Real.sqrt`) agrees with the
comparison of squared lengths, so every `dist < dist` test in the source is
faithfully mirrored by a `distSq < distSq` test. -/
theorem distSq_lt_iff_dist_lt (a b : ℚ) (ha : 0 ≤ a) :
    Real.sqrt a < Real.sqrt b ↔ a < b := by
  rw [Real.sqrt_lt_sqrt_iff (by exact_mod_cast ha)]
  exact_mod_cast Iff.rfl

/-- Python exceptions that the source can raise. -/
inductive PyErr where
  | typeError
  | indexError
  | zeroDivisionError
deriving DecidableEq, Repr

instance {ε α : Type} [DecidableEq ε] [DecidableEq α] : DecidableEq (Except ε α) :=
  fun a b =>
    match a, b with
    | .ok x, .ok y =>
      if h : x = y then .isTrue (by rw [h]) else .isFalse (fun hh => h (by cases hh; rfl))
    | .error x, .error y =>
      if h : x = y then .isTrue (by rw [h]) else .isFalse (fun hh => h (by cases hh; rfl))
    | .ok _, .error _ => .isFalse (fun hh => by cases hh)
    | .error _, .ok _ => .isFalse (fun hh => by cases hh)

/-- A `bmesh` vertex: a coordinate and a selection flag.  Identity is the
vertex's index in `BMesh.verts`. -/
structure BMVert where
  co : Vec3
  select : Bool
deriving DecidableEq, Repr

/-- A `bmesh` face: the cyclic list of its vertex indices, plus its stored
surface normal (maintained by Blender, read-only to the operator). -/
structure BMFace where
  verts : List Nat
  normal : Vec3
deriving DecidableEq, Repr

/-- A `bmesh` snapshot: vertices, edges (unordered pairs of vertex indices,
stored as ordered pairs in `edge.verts` order), faces. -/
structure BMesh where
  verts : List BMVert
  edges : List (Nat × Nat)
  faces : List BMFace
deriving DecidableEq, Repr

def defaultVert : BMVert := ⟨0, false⟩

def defaultFace : BMFace := ⟨[], 0⟩

/-- `vert.co` for the vertex with index `i`. -/
def coOf (m : BMesh) (i : Nat) : Vec3 := (m.verts.getD i defaultVert).co

/-- `vert.select` for the vertex with index `i`. -/
def vertSelect (m : BMesh) (i : Nat) : Bool := (m.verts.getD i defaultVert).select

/-- The face object with index `f`. -/
def faceOf (m : BMesh) (f : Nat) : BMFace := m.faces.getD f defaultFace

/-- `vert.link_edges`: the mesh edges incident to vertex `i`, in mesh edge
order. -/
def linkEdges (m : BMesh) (i : Nat) : List (Nat × Nat) :=
  m.edges.filter (fun e => i = e.1 ∨ i = e.2)

/-- `vert.link_faces`: indices of the faces whose vertex cycle contains `i`,
in mesh face order. -/
def linkFaces (m : BMesh) (i : Nat) : List Nat :=
  (List.range m.faces.length).filter (fun f => i ∈ (faceOf m f).verts)

/-- `face.edges` as vertex-index pairs, derived from the face's vertex cycle
(`bmesh` keeps face edges consistent with the cycle). -/
def BMFace.edgePairs (f : BMFace) : List (Nat × Nat) :=
  (List.range f.verts.length).map
    (fun i => (f.verts.getD i 0, f.verts.getD ((i + 1) % f.verts.length) 0))

/-- `face.calc_center_median()`: the arithmetic mean of the face's vertex
coordinates (zero for a face with no vertices, which `bmesh` never builds). -/
def calc_center_median (m : BMesh) (f : Nat) : Vec3 :=
  let vs := (faceOf m f).verts
  if vs.length = 0 then 0
  else (1 / (vs.length : ℚ)) • vsum (vs.map (coOf m))

/-- `convert_vectors_to_plane(va, vb, vc)` (lines 39-44): the cross product
`(vb - va) × (vb - vc)`.  The source then calls `normal.normalize()`
(division by the Euclidean length, irrational in general); the embedding
keeps the unnormalized direction vector. -/
def convert_vectors_to_plane (va vb vc : Vec3) : Vec3 :=
  cross (vb - va) (vb - vc)

/-- `project_vertex_onto_plane(vert, anchor, plane)` (lines 47-49):
`vert.co - plane * plane.dot(vert.co - anchor)`. -/
def project_vertex_onto_plane (co anchor plane : Vec3) : Vec3 :=
  co - (dot plane (co - anchor)) • plane

/-- The running-minimum loop of `get_face_closest_to_point` (lines 55-59):
`min_dist` starts as `False` (`none`) and is updated to `(dist, face)`
whenever `not min_dist or dist < min_dist[0]`; a held pair is a nonempty
tuple, hence truthy, so only the strict `<` updates after the first face. -/
def closestFold (m : BMesh) (point : Vec3) (acc : Option (ℚ × Nat))
    (faces : List Nat) : Option (ℚ × Nat) :=
  faces.foldl
    (fun acc f =>
      let d := distSq (calc_center_median m f) point
      match acc with
      | none => some (d, f)
      | some (dmin, fmin) => if d < dmin then some (d, f) else some (dmin, fmin))
    acc

/-- `get_face_closest_to_point(faces, point)` (lines 52-61): linear scan
keeping `(dist, face)`; the first face attaining the minimum distance wins.
An empty `faces` leaves `min_dist` as `False` and `min_dist[1]` raises
`TypeError`.  Distances are compared as squared lengths (see
`distSq_lt_iff_dist_lt`). -/
def get_face_closest_to_point (m : BMesh) (faces : List Nat) (point : Vec3) :
    Except PyErr Nat :=
  match closestFold m point none faces with
  | none => .error .typeError
  | some (_, f) => .ok f

/-- Stable insertion of `a` into an already key-sorted list (ascending). -/
def insertByKey (key : Nat → ℚ) (a : Nat) : List Nat → List Nat
  | [] => [a]
  | b :: bs => if key b ≤ key a then b :: insertByKey key a bs else a :: b :: bs

/-- Stable ascending sort by a rational key. -/
def sortByKey (key : Nat → ℚ) : List Nat → List Nat
  | [] => []
  | a :: as' => insertByKey key a (sortByKey key as')

/-- `sort_verts_distance_from_point(verts, point)` (lines 64-67) with the
default `reverse=False`: stable ascending sort of the vertex indices by
distance from `point`.  Python's `list.sort` is stable, and a stable sort is
uniquely determined by the key order, so this stable insertion sort computes
the same list; the key is the squared magnitude, which orders identically to
the magnitude the source uses. -/
def sort_verts_distance_from_point (m : BMesh) (verts : List Nat) (point : Vec3) :
    List Nat :=
  sortByKey (fun v => distSq (coOf m v) point) verts

example : dot ⟨1, 2, 3⟩ ⟨4, 5, 6⟩ = 32 := by norm_num [dot]
example : cross ⟨1, 0, 0⟩ ⟨0, 1, 0⟩ = ⟨0, 0, 1⟩ := by norm_num [cross, Vec3.ext_iff]
example : project_vertex_onto_plane ⟨1, 2, 5⟩ 0 ⟨0, 0, 1⟩ = ⟨1, 2, 0⟩ := by
  norm_num [project_vertex_onto_plane, dot, Vec3.sub_def, Vec3.smul_def, Vec3.zero_def,
    Vec3.ext_iff]

/-- The `plane_source` enum property (lines 76-83, 102-105). -/
inductive PlaneSource where
  | average
  | cursor
  | connected
deriving DecidableEq, Repr

/-- The `plane_anchor` enum property (lines 85-93, 107-110). -/
inductive PlaneAnchor where
  | average
  | cursor
  | connected
deriving DecidableEq, Repr

/-- The `iteration_mode` enum property (lines 95-100, 112-115). -/
inductive IterationMode where
  | grouped
  | individual
deriving DecidableEq, Repr

/-- The operator's three configuration properties.  In Blender these are
operator properties: assigning to them inside `execute` (lines 126-127)
changes the operator's stored settings. -/
structure Config where
  plane_source : PlaneSource
  plane_anchor : PlaneAnchor
  iteration_mode : IterationMode
deriving DecidableEq, Repr

/-- `context.active_object.matrix_world.inverted()` viewed as the affine map
it is applied as: `M * v` with a linear part (rows `rx`, `ry`, `rz`) and a
translation `t`. -/
structure Mat where
  rx : Vec3
  ry : Vec3
  rz : Vec3
  t : Vec3
deriving DecidableEq, Repr

/-- `matrix * vector` (the only operation the source performs with the
inverse world matrix). -/
def Mat.apply (M : Mat) (v : Vec3) : Vec3 :=
  ⟨dot M.rx v + M.t.x, dot M.ry v + M.t.y, dot M.rz v + M.t.z⟩

/-- The identity transform (an object that was never moved). -/
def idMat : Mat := ⟨⟨1, 0, 0⟩, ⟨0, 1, 0⟩, ⟨0, 0, 1⟩, 0⟩

/-- One step of `if face not in faces: faces.append(face)` (lines 267-268). -/
def addUnique (fs : List Nat) (f : Nat) : List Nat :=
  if f ∈ fs then fs else fs ++ [f]

/-- `MeshPlanarizer.getFaces(selected_verts, connected)` (lines 262-272).
With `connected=True`: for each selected vertex, the linked faces having
MORE THAN 3 vertices (`len(f.verts) > 3`, so triangles are skipped), each
appended once in encounter order.  With `connected=False`: all mesh faces. -/
def getFaces (m : BMesh) (selected : List Nat) (connected : Bool) : List Nat :=
  if connected then
    selected.foldl
      (fun faces v =>
        ((linkFaces m v).filter (fun f => 3 < (faceOf m f).verts.length)).foldl
          addUnique faces)
      []
  else List.range m.faces.length

/-- `face_edges` of `getVectFromDiagonal` (line 276): the face's edges that
do not contain `vert`. -/
def faceEdgesAvoiding (m : BMesh) (f : Nat) (vert : Nat) : List (Nat × Nat) :=
  (faceOf m f).edgePairs.filter (fun e => ¬(vert = e.1 ∨ vert = e.2))

/-- `face_verts` of `getVectFromDiagonal` after the `< 3` fallback
(lines 282-286): the unselected vertices of the face, or if fewer than three,
every face vertex other than `vert`. -/
def diagFaceVerts (m : BMesh) (f : Nat) (vert : Nat) : List Nat :=
  let fv := (faceOf m f).verts.filter (fun v => ¬ vertSelect m v)
  if fv.length < 3 then (faceOf m f).verts.filter (fun v => v ≠ vert) else fv

/-- The `middle_vert` search loop (lines 289-294): the first vertex lying on
both `face_edges[0]` and `face_edges[1]`.  Python's `and` short-circuits, so
`face_edges[1]` is subscripted (possibly raising `IndexError`) only once a
vertex lying on `face_edges[0]` is reached; `face_edges[0]` is subscripted on
the first iteration. -/
def findMiddleVert : List Nat → List (Nat × Nat) → Except PyErr (Option Nat)
  | [], _ => .ok none
  | v :: rest, face_edges =>
    match face_edges with
    | [] => .error .indexError
    | [e0] =>
      if v = e0.1 ∨ v = e0.2 then .error .indexError
      else findMiddleVert rest [e0]
    | e0 :: e1 :: es =>
      if (v = e0.1 ∨ v = e0.2) ∧ (v = e1.1 ∨ v = e1.2) then .ok (some v)
      else findMiddleVert rest (e0 :: e1 :: es)

/-- The `other_verts` loop (lines 296-299): for each of `face_edges`, the
first endpoint different from `middle_vert` (when `middle_vert` is `None`,
`not v == middle_vert` keeps every endpoint); `v[0]` raises `IndexError` on
an empty filter result. -/
def otherVertsLoop : List (Nat × Nat) → Option Nat → Except PyErr (List Nat)
  | [], _ => .ok []
  | e :: rest, mid =>
    match ([e.1, e.2].filter (fun vv => some vv ≠ mid)) with
    | [] => .error .indexError
    | x :: _ => (otherVertsLoop rest mid).map (fun r => x :: r)

/-- `MeshPlanarizer.getVectFromDiagonal(vert, face)` (lines 274-312).
Returns the coordinate triple `(other[0], middle, other[1])`, or `none`
(Python `None`) when fewer than two other vertices exist or no middle vertex
was found; raises `IndexError` as the subscript accesses in the loops do. -/
def getVectFromDiagonal (m : BMesh) (vert : Nat) (f : Nat) :
    Except PyErr (Option (Vec3 × Vec3 × Vec3)) := do
  let face_edges := faceEdgesAvoiding m f vert
  let face_verts := diagFaceVerts m f vert
  let middle ← findMiddleVert face_verts face_edges
  let other ← otherVertsLoop face_edges middle
  match middle, other with
  | some mid, a :: b :: _ => pure (some (coOf m a, coOf m mid, coOf m b))
  | _, _ => pure none

/-- `try: ... except TypeError: return face.normal` (lines 315-319): a
`TypeError` is replaced by the face's own normal, every other exception
propagates. -/
def catchTypeErrorWith (fallback : Vec3) : Except PyErr Vec3 → Except PyErr Vec3
  | .error .typeError => .ok fallback
  | r => r

/-- Tuple unpacking `(va, vb, vc) = r` (line 316): unpacking `None` raises
`TypeError`. -/
def unpack3 : Option (Vec3 × Vec3 × Vec3) → Except PyErr (Vec3 × Vec3 × Vec3)
  | none => .error .typeError
  | some t => .ok t

/-- `MeshPlanarizer.getPlaneFromDiagonal(vert, face)` (lines 314-319). -/
def getPlaneFromDiagonal (m : BMesh) (vert : Nat) (f : Nat) : Except PyErr Vec3 :=
  catchTypeErrorWith (faceOf m f).normal
    (do
      let r ← getVectFromDiagonal m vert f
      let t ← unpack3 r
      pure (convert_vectors_to_plane t.1 t.2.1 t.2.2))

/-- `MeshPlanarizer.getPlaneFromCursor(selected_verts, bm, connected)`
(lines 199-207).  The cursor IS transformed by the inverse world matrix here
(line 200).  `selected_verts[0]` on an empty selection raises `IndexError`. -/
def getPlaneFromCursor (m : BMesh) (cursor : Vec3) (inv : Mat)
    (selected : List Nat) (connected : Bool) : Except PyErr Vec3 := do
  let cursor_pos := inv.apply cursor
  let faces := getFaces m selected connected
  let face ← get_face_closest_to_point m faces cursor_pos
  if 1 < selected.length then
    pure (faceOf m face).normal
  else
    match selected with
    | [] => .error .indexError
    | v :: _ => getPlaneFromDiagonal m v face

/-- `MeshPlanarizer.getPlaneFromAverage(selected_verts, bm)` (lines 212-220):
`scale = 1.0 / len(faces)` raises `ZeroDivisionError` when no connected
face with more than 3 vertices exists; otherwise each such face's normal is
accumulated scaled by `1/len`.  The source then calls `normal.normalize()`
(division by the Euclidean length, irrational in general); the embedding
returns the pre-normalization average, on which every claim treated here is
stated. -/
def getPlaneFromAverage (m : BMesh) (selected : List Nat) : Except PyErr Vec3 :=
  let faces := getFaces m selected true
  if faces.length = 0 then .error .zeroDivisionError
  else
    .ok (faces.foldl
      (fun n f => n + (1 / (faces.length : ℚ)) • (faceOf m f).normal) 0)

/-- `MeshPlanarizer.getPlane` dispatch (lines 191-197). -/
def getPlane (cfg : Config) (m : BMesh) (cursor : Vec3) (inv : Mat)
    (selected : List Nat) : Except PyErr Vec3 :=
  match cfg.plane_source with
  | .cursor => getPlaneFromCursor m cursor inv selected false
  | .average => getPlaneFromAverage m selected
  | .connected => getPlaneFromCursor m cursor inv selected true

/-- `MeshPlanarizer.getAnchorCursor` (lines 230-231): the cursor transformed
into the mesh's local frame. -/
def getAnchorCursor (cursor : Vec3) (inv : Mat) : Except PyErr (Option Vec3) :=
  .ok (some (inv.apply cursor))

/-- `MeshPlanarizer.getAnchorAverage` (lines 233-238): the centroid of the
selected vertices (`1/len` raises `ZeroDivisionError` on an empty list). -/
def getAnchorAverage (m : BMesh) (selected : List Nat) : Except PyErr (Option Vec3) :=
  if selected.length = 0 then .error .zeroDivisionError
  else
    .ok (some (selected.foldl
      (fun acc v => acc + (1 / (selected.length : ℚ)) • coOf m v) 0))

/-- The inner scan of `getAnchorConnected` for one selected vertex
(lines 250-254): `ref_vert` is overwritten by EVERY unselected endpoint met
while walking `v.link_edges`, so it ends as the LAST unselected endpoint in
scan order (or stays `None`). -/
def lastUnselScan (m : BMesh) (selected : List Nat) (v : Nat) : Option Nat :=
  (linkEdges m v).foldl
    (fun acc e =>
      [e.1, e.2].foldl (fun acc2 w => if w ∈ selected then acc2 else some w) acc)
    none

/-- `MeshPlanarizer.getAnchorConnected(selected_verts, bm)` (lines 240-260).
Single-vertex branch: NOTE that line 242 reads the raw `getCursor()` value,
with no inverse-world-matrix transform (unlike `getPlaneFromCursor` line 200
and `getAnchorCursor` line 231); `getVectFromDiagonal(...)[1]` subscripts the
result, so a `None` result raises `TypeError`.  Multi-vertex branch: the
first selected vertex whose edge scan meets an unselected vertex supplies the
last such vertex of its scan; `None` is returned when no scan finds one. -/
def getAnchorConnected (m : BMesh) (cursor : Vec3) (inv : Mat)
    (selected : List Nat) : Except PyErr (Option Vec3) :=
  if selected.length = 1 then do
    let cursor_pos := cursor
    let faces := getFaces m selected true
    let face ← get_face_closest_to_point m faces cursor_pos
    let r ← getVectFromDiagonal m (selected.getD 0 0) face
    match r with
    | none => .error .typeError
    | some t => pure (some t.2.1)
  else
    .ok ((selected.findSome? (fun v => lastUnselScan m selected v)).map (coOf m))

/-- `MeshPlanarizer.getAnchor` dispatch (lines 222-228). -/
def getAnchor (cfg : Config) (m : BMesh) (cursor : Vec3) (inv : Mat)
    (selected : List Nat) : Except PyErr (Option Vec3) :=
  match cfg.plane_anchor with
  | .cursor => getAnchorCursor cursor inv
  | .average => getAnchorAverage m selected
  | .connected => getAnchorConnected m cursor inv selected

/-- The operator's return status set: `{'CANCELLED'}` or `{'FINISHED'}`. -/
inductive OpStatus where
  | cancelled
  | finished
deriving DecidableEq, Repr

/-- Observable outcome of one `execute` invocation: the mesh, the operator's
(possibly reassigned) configuration properties, the returned status, and the
`self.report` message if any. -/
structure ExecOut where
  mesh : BMesh
  cfg : Config
  status : OpStatus
  report : Option String
deriving DecidableEq, Repr

/-- `[v for v in bm.verts if v.select]` (line 119), as vertex indices. -/
def selectedIdx (m : BMesh) : List Nat :=
  (List.range m.verts.length).filter (fun i => vertSelect m i)

/-- `v.co = project_vertex_onto_plane(v, anchor, plane)` applied to each
vertex of `targets` (each selected vertex is written once, so the sequential
loop equals this simultaneous update). -/
def writeVerts (m : BMesh) (targets : List Nat) (anchor plane : Vec3) : BMesh :=
  { m with
    verts := m.verts.mapIdx (fun i v =>
      if i ∈ targets then { v with co := project_vertex_onto_plane v.co anchor plane }
      else v) }

/-- One iteration of the "individual" loop (lines 145-149): plane and anchor
are recomputed for the single vertex `v` against the current mesh state, and
`v` is projected (with the anchor-`None` `TypeError` as in grouped mode). -/
def individualStep (cfg : Config) (cursor : Vec3) (inv : Mat) (mAcc : BMesh)
    (v : Nat) : Except PyErr BMesh := do
  let plane ← getPlane cfg mAcc cursor inv [v]
  let anchorOpt ← getAnchor cfg mAcc cursor inv [v]
  match anchorOpt with
  | none => .error .typeError
  | some anchor => pure (writeVerts mAcc [v] anchor plane)

/-- Lines 125-127: `if self.num_verts == 1 or self.iteration_mode ==
'individual': self.plane_anchor = 'connected'; self.plane_source =
'connected'` — the operator's stored configuration after the reassignment. -/
def forcedCfg (cfg : Config) (m : BMesh) : Config :=
  if (selectedIdx m).length = 1 ∨ cfg.iteration_mode = .individual then
    { cfg with plane_anchor := .connected, plane_source := .connected }
  else cfg

/-- `MeshPlanarizer.execute(context)` (lines 117-152).  Note the order: the
`plane_anchor`/`plane_source` reassignment (125-127) precedes the empty-
selection check (129-131).  A `None` anchor reaches `vert.co - anchor` inside
`project_vertex_onto_plane` and raises `TypeError` before any coordinate is
written. -/
def execute (cfg : Config) (m : BMesh) (cursor : Vec3) (inv : Mat) :
    Except PyErr ExecOut :=
  let selected := selectedIdx m
  let cfg1 := forcedCfg cfg m
  if selected = [] then
    .ok ⟨m, cfg1, .cancelled, some "No vertices selected"⟩
  else
    match cfg1.iteration_mode with
    | .grouped => do
      let plane ← getPlane cfg1 m cursor inv selected
      let anchorOpt ← getAnchor cfg1 m cursor inv selected
      match anchorOpt with
      | none => .error .typeError
      | some anchor => pure ⟨writeVerts m selected anchor plane, cfg1, .finished, none⟩
    | .individual => do
      let cursor_pos := inv.apply cursor
      let sorted := sort_verts_distance_from_point m selected cursor_pos
      let mFinal ← sorted.foldlM (individualStep cfg1 cursor inv) m
      pure ⟨mFinal, cfg1, .finished, none⟩

/-! ## Specification-side definitions

Definitions below named `...Spec` follow the words of a spec/claim sentence
(for comparison against the source-translated functions above); they are not
translations of the source. -/

/-- Follows the claim's words for the multi-vertex "connected" anchor: "the
first unselected vertex found adjacent (via any incident edge) to any
selected vertex", reading the scan order as: selected vertices in order,
each vertex's incident edges in order, each edge's two endpoints in order. -/
def firstUnselNeighborSpec (m : BMesh) (selected : List Nat) : Option Nat :=
  selected.findSome? (fun v =>
    ((linkEdges m v).flatMap (fun e => [e.1, e.2])).find?
      (fun w => ¬ w ∈ selected))

/-- Follows the amended claim's words: scanning the same order, the chosen
vertex is the LAST unselected endpoint in the scan of the first selected
vertex whose scan meets any unselected endpoint. -/
def lastUnselNeighborSpec (m : BMesh) (selected : List Nat) (v : Nat) : Option Nat :=
  (((linkEdges m v).flatMap (fun e => [e.1, e.2])).filter
    (fun w => ¬ w ∈ selected)).getLast?

/-! ## Concrete instances used by witnesses and counterexamples -/

/-- A mesh with one vertex, nothing selected. -/
def mNoneSelected : BMesh := ⟨[⟨⟨0, 0, 0⟩, false⟩], [], []⟩

/-- Two quads sharing the single selected vertex 0.  Quad 0 lies in the
`z = 0` plane (centroid `(1,1,0)`), quad 1 in the `x = 0` plane (centroid
`(0,1,1)`). -/
def mC2 : BMesh :=
  ⟨[⟨⟨0, 0, 0⟩, true⟩, ⟨⟨2, 0, 0⟩, false⟩, ⟨⟨2, 2, 0⟩, false⟩, ⟨⟨0, 2, 0⟩, false⟩,
    ⟨⟨0, 2, 2⟩, false⟩, ⟨⟨0, 0, 2⟩, false⟩],
   [(0, 1), (1, 2), (2, 3), (0, 3), (3, 4), (4, 5), (0, 5)],
   [⟨[0, 1, 2, 3], ⟨0, 0, 1⟩⟩, ⟨[0, 3, 4, 5], ⟨1, 0, 0⟩⟩]⟩

/-- A world-space cursor position: closest to quad 1's centroid. -/
def cursorC2 : Vec3 := ⟨0, 1, 1⟩

/-- An inverse world matrix that translates by `(1, 0, -1)`: the local-frame
cursor `invC2 * cursorC2 = (1,1,0)` is closest to quad 0's centroid. -/
def invC2 : Mat := ⟨⟨1, 0, 0⟩, ⟨0, 1, 0⟩, ⟨0, 0, 1⟩, ⟨1, 0, -1⟩⟩

/-- Vertices 0 and 1 selected; vertex 0's incident edges (in mesh order)
lead to the unselected vertex 2, then the unselected vertex 3, then the
selected vertex 1. -/
def mC3 : BMesh :=
  ⟨[⟨⟨0, 0, 0⟩, true⟩, ⟨⟨1, 0, 0⟩, true⟩, ⟨⟨0, 1, 0⟩, false⟩, ⟨⟨0, 0, 1⟩, false⟩],
   [(0, 2), (0, 3), (0, 1)], []⟩

/-- A single (non-planar) quad with all four vertices selected. -/
def mC4 : BMesh :=
  ⟨[⟨⟨0, 0, 0⟩, true⟩, ⟨⟨2, 0, 0⟩, true⟩, ⟨⟨2, 2, 0⟩, true⟩, ⟨⟨0, 2, 1⟩, true⟩],
   [(0, 1), (1, 2), (2, 3), (3, 0)], [⟨[0, 1, 2, 3], ⟨0, 0, 1⟩⟩]⟩

/-- A mesh whose selection is exactly one vertex. -/
def mOneSelected : BMesh := ⟨[⟨⟨0, 0, 0⟩, true⟩, ⟨⟨1, 0, 0⟩, false⟩], [], []⟩

/-- Two one-vertex faces whose centroids are equidistant from the origin
(a distance tie). -/
def mC6 : BMesh :=
  ⟨[⟨⟨1, 0, 0⟩, false⟩, ⟨⟨-1, 0, 0⟩, false⟩], [],
   [⟨[0], ⟨0, 0, 1⟩⟩, ⟨[1], ⟨0, 0, 1⟩⟩]⟩

/-- A single triangle whose vertex 0 is selected: the selection HAS a
connected face, but no connected face with more than 3 vertices. -/
def mC8 : BMesh :=
  ⟨[⟨⟨0, 0, 0⟩, true⟩, ⟨⟨2, 0, 0⟩, false⟩, ⟨⟨0, 2, 0⟩, false⟩],
   [(0, 1), (1, 2), (2, 0)], [⟨[0, 1, 2], ⟨1, 0, 0⟩⟩]⟩

/-- A single quad whose vertex 0 is selected (one connected `> 3`-vertex
face). -/
def mC8q : BMesh :=
  ⟨[⟨⟨0, 0, 0⟩, true⟩, ⟨⟨2, 0, 0⟩, false⟩, ⟨⟨2, 2, 0⟩, false⟩, ⟨⟨0, 2, 0⟩, false⟩],
   [(0, 1), (1, 2), (2, 3), (3, 0)], [⟨[0, 1, 2, 3], ⟨0, 0, 1⟩⟩]⟩

/-- A triangle containing vertex 0, with nothing selected: exactly one face
edge avoids vertex 0, and the face's other vertices lie on it. -/
def mC10 : BMesh :=
  ⟨[⟨⟨0, 0, 0⟩, false⟩, ⟨⟨2, 0, 0⟩, false⟩, ⟨⟨0, 2, 0⟩, false⟩],
   [(0, 1), (1, 2), (2, 0)], [⟨[0, 1, 2], ⟨0, 0, 1⟩⟩]⟩

/-! ## Theorems -/

/-- C7: `project_vertex_onto_plane` is idempotent: for every point, anchor,
and unit-length normal, applying the projection twice with the same anchor
and normal yields the same result as applying it once, and a point already
on the plane (signed offset `dot n (p - a) = 0`) is returned unchanged. -/
theorem project_vertex_onto_plane_idempotent (p a n : Vec3) (h : normSq n = 1) :
    project_vertex_onto_plane (project_vertex_onto_plane p a n) a n
        = project_vertex_onto_plane p a n
    ∧ (dot n (p - a) = 0 → project_vertex_onto_plane p a n = p) := by
  have key : dot n (project_vertex_onto_plane p a n - a)
      = dot n (p - a) * (1 - normSq n) := by
    simp only [project_vertex_onto_plane, dot, normSq, Vec3.sub_x, Vec3.sub_y, Vec3.sub_z,
      Vec3.smul_x, Vec3.smul_y, Vec3.smul_z]
    ring
  constructor
  · have h2 : dot n (project_vertex_onto_plane p a n - a) = 0 := by
      rw [key, h]; ring
    show project_vertex_onto_plane p a n
        - (dot n (project_vertex_onto_plane p a n - a)) • n
        = project_vertex_onto_plane p a n
    rw [h2]
    ext <;> simp
  · intro h0
    show p - (dot n (p - a)) • n = p
    rw [h0]
    ext <;> simp

/-- Witness for C7 at a concrete input: the normal `(0,0,1)` has unit length
and projecting `(1,2,5)` twice onto its plane through the origin equals
projecting once. -/
theorem project_vertex_onto_plane_idempotent_witness :
    normSq ⟨0, 0, 1⟩ = 1
    ∧ project_vertex_onto_plane (project_vertex_onto_plane ⟨1, 2, 5⟩ 0 ⟨0, 0, 1⟩) 0 ⟨0, 0, 1⟩
        = project_vertex_onto_plane ⟨1, 2, 5⟩ 0 ⟨0, 0, 1⟩ := by
  have h : normSq (⟨0, 0, 1⟩ : Vec3) = 1 := by norm_num [normSq, dot]
  exact ⟨h, (project_vertex_onto_plane_idempotent ⟨1, 2, 5⟩ 0 ⟨0, 0, 1⟩ h).1⟩

theorem selectedIdx_eq_nil {m : BMesh} (h : ∀ v ∈ m.verts, v.select = false) :
    selectedIdx m = [] := by
  refine List.filter_eq_nil_iff.mpr ?_
  intro i hi
  rw [List.mem_range] at hi
  simp only [vertSelect, List.getD_eq_getElem _ _ hi]
  simp [h _ (List.getElem_mem hi)]

/-- C1: with an empty selection (no vertex has its selected flag set),
`execute` reports "No vertices selected", returns `CANCELLED`, and leaves
the mesh — in particular every vertex coordinate — unchanged. -/
theorem execute_empty_selection_cancels (cfg : Config) (m : BMesh) (cursor : Vec3)
    (inv : Mat) (h : ∀ v ∈ m.verts, v.select = false) :
    ∃ c, execute cfg m cursor inv = .ok ⟨m, c, .cancelled, some "No vertices selected"⟩ := by
  refine ⟨forcedCfg cfg m, ?_⟩
  simp [execute, selectedIdx_eq_nil h]

/-- Witness for C1: a one-vertex mesh with nothing selected. -/
theorem execute_empty_selection_cancels_witness :
    ∃ c, execute ⟨.average, .average, .grouped⟩ mNoneSelected 0 idMat
      = .ok ⟨mNoneSelected, c, .cancelled, some "No vertices selected"⟩ :=
  execute_empty_selection_cancels ⟨.average, .average, .grouped⟩ mNoneSelected 0 idMat
    (by decide)

/-- C5: when the selection contains exactly one vertex, `execute` behaves
exactly as if both the plane source and the anchor had been configured to
"connected", whatever they were configured to before the invocation
(lines 125-127 overwrite both before any strategy dispatch). -/
theorem execute_single_vertex_forces_connected (cfg : Config) (m : BMesh)
    (cursor : Vec3) (inv : Mat) (h : (selectedIdx m).length = 1) :
    execute cfg m cursor inv
      = execute ⟨.connected, .connected, cfg.iteration_mode⟩ m cursor inv := by
  simp [execute, forcedCfg, h]

/-- Witness for C5: on a mesh whose selection is exactly one vertex, the
configuration `(average, cursor, grouped)` produces the same invocation
result as `(connected, connected, grouped)`. -/
theorem execute_single_vertex_forces_connected_witness :
    execute ⟨.average, .cursor, .grouped⟩ mOneSelected 0 idMat
      = execute ⟨.connected, .connected, .grouped⟩ mOneSelected 0 idMat :=
  execute_single_vertex_forces_connected ⟨.average, .cursor, .grouped⟩ mOneSelected 0 idMat
    (by decide)

/-- C4 (code-bug evidence): on a quad with all four vertices selected, the
"connected" anchor strategy returns `None` (no centroid fallback exists in
the code), and the whole invocation then dies with a `TypeError` when
`vert.co - None` is evaluated inside the projection. -/
theorem getAnchorConnected_all_selected_none_crash :
    getAnchorConnected mC4 0 idMat (selectedIdx mC4) = .ok none
    ∧ execute ⟨.connected, .connected, .grouped⟩ mC4 0 idMat = .error .typeError := by
  decide

/-- C3 (counterexample): on `mC3` the first unselected vertex encountered in
the scan over selected vertices and their incident edges is vertex 2 (at
`(0,1,0)`), but the code returns the position of vertex 3 (at `(0,0,1)`) —
the LAST unselected endpoint of the first selected vertex's scan — so the
claim's "first encountered" is false. -/
theorem getAnchorConnected_first_neighbor_counterexample :
    firstUnselNeighborSpec mC3 (selectedIdx mC3) = some 2
    ∧ coOf mC3 2 = ⟨0, 1, 0⟩
    ∧ getAnchorConnected mC3 0 idMat (selectedIdx mC3) = .ok (some ⟨0, 0, 1⟩)
    ∧ coOf mC3 3 = ⟨0, 0, 1⟩
    ∧ (⟨0, 0, 1⟩ : Vec3) ≠ ⟨0, 1, 0⟩ := by
  decide

/-- C8 (counterexample): vertex 0 of `mC8` is selected and HAS a connected
face (the triangle, face 0), yet `getPlaneFromAverage` fails with
`ZeroDivisionError`, because `getFaces` only collects connected faces with
MORE than 3 vertices — so "fails exactly when the selection has no connected
candidate faces" is false for "connected faces" read as stated. -/
theorem getPlaneFromAverage_triangle_counterexample :
    linkFaces mC8 0 = [0]
    ∧ selectedIdx mC8 = [0]
    ∧ getFaces mC8 (selectedIdx mC8) true = []
    ∧ getPlaneFromAverage mC8 (selectedIdx mC8) = .error .zeroDivisionError := by
  decide

/-- C9 (counterexample): an invocation in "individual" iteration mode with
an empty selection returns `CANCELLED` without touching any vertex, yet its
durable effect includes rewriting the configured plane-source and anchor
properties to "connected" (lines 125-127 run before the empty-selection
check) — so vertex positions are NOT the only mutated observable state. -/
theorem execute_rewrites_config_counterexample :
    (execute ⟨.average, .average, .individual⟩ mNoneSelected 0 idMat).map ExecOut.cfg
      = .ok ⟨.connected, .connected, .individual⟩
    ∧ (⟨.connected, .connected, .individual⟩ : Config)
        ≠ ⟨.average, .average, .individual⟩ := by
  decide

theorem exceptBind_ok {α β ε : Type} (x : α) (f : α → Except ε β) :
    Except.bind (.ok x) f = f x := rfl

theorem exceptBind_error {α β ε : Type} (e : ε) (f : α → Except ε β) :
    Except.bind (.error e) f = .error e := rfl

theorem findMiddleVert_nil (fe : List (Nat × Nat)) : findMiddleVert [] fe = .ok none := rfl

theorem findMiddleVert_cons_nil (v : Nat) (rest : List Nat) :
    findMiddleVert (v :: rest) [] = .error .indexError := rfl

theorem findMiddleVert_cons_one (v : Nat) (rest : List Nat) (e0 : Nat × Nat) :
    findMiddleVert (v :: rest) [e0]
      = if v = e0.1 ∨ v = e0.2 then .error .indexError else findMiddleVert rest [e0] := rfl

theorem findMiddleVert_cons_two (v : Nat) (rest : List Nat) (e0 e1 : Nat × Nat)
    (es : List (Nat × Nat)) :
    findMiddleVert (v :: rest) (e0 :: e1 :: es)
      = if (v = e0.1 ∨ v = e0.2) ∧ (v = e1.1 ∨ v = e1.2) then .ok (some v)
        else findMiddleVert rest (e0 :: e1 :: es) := rfl

theorem findMiddleVert_error_eq (fv : List Nat) (fe : List (Nat × Nat)) (e : PyErr)
    (h : findMiddleVert fv fe = .error e) : e = .indexError := by
  induction fv generalizing fe with
  | nil => rw [findMiddleVert_nil] at h; exact Except.noConfusion h
  | cons v rest ih =>
    match fe with
    | [] =>
      rw [findMiddleVert_cons_nil] at h
      injection h with h'
      exact h'.symm
    | [e0] =>
      rw [findMiddleVert_cons_one] at h
      by_cases hc : v = e0.1 ∨ v = e0.2
      · rw [if_pos hc] at h
        injection h with h'
        exact h'.symm
      · rw [if_neg hc] at h
        exact ih _ h
    | e0 :: e1 :: es =>
      rw [findMiddleVert_cons_two] at h
      by_cases hc : (v = e0.1 ∨ v = e0.2) ∧ (v = e1.1 ∨ v = e1.2)
      · rw [if_pos hc] at h
        exact Except.noConfusion h
      · rw [if_neg hc] at h
        exact ih _ h

theorem otherVertsLoop_nil (mid : Option Nat) : otherVertsLoop [] mid = .ok [] := rfl

theorem otherVertsLoop_cons (e : Nat × Nat) (rest : List (Nat × Nat)) (mid : Option Nat) :
    otherVertsLoop (e :: rest) mid
      = match ([e.1, e.2].filter (fun vv => some vv ≠ mid)) with
        | [] => .error .indexError
        | x :: _ => (otherVertsLoop rest mid).map (fun r => x :: r) := rfl

theorem otherVertsLoop_error_eq (l : List (Nat × Nat)) (mid : Option Nat) (e : PyErr)
    (h : otherVertsLoop l mid = .error e) : e = .indexError := by
  induction l with
  | nil => rw [otherVertsLoop_nil] at h; exact Except.noConfusion h
  | cons e0 rest ih =>
    rw [otherVertsLoop_cons] at h
    cases hf : [e0.1, e0.2].filter (fun vv => some vv ≠ mid) with
    | nil =>
      rw [hf] at h
      injection h with h'
      exact h'.symm
    | cons x xs =>
      rw [hf] at h
      cases ho : otherVertsLoop rest mid with
      | error e2 =>
        rw [ho] at h
        injection h with h'
        rw [h'] at ho
        exact ih ho
      | ok r =>
        rw [ho] at h
        exact Except.noConfusion h

theorem getVectFromDiagonal_def (m : BMesh) (vert f : Nat) :
    getVectFromDiagonal m vert f
      = Except.bind (findMiddleVert (diagFaceVerts m f vert) (faceEdgesAvoiding m f vert))
          (fun middle =>
            Except.bind (otherVertsLoop (faceEdgesAvoiding m f vert) middle)
              (fun other =>
                match middle, other with
                | some mid, a :: b :: _ => .ok (some (coOf m a, coOf m mid, coOf m b))
                | _, _ => .ok none)) := rfl

theorem getVectFromDiagonal_error_eq (m : BMesh) (vert f : Nat) (e : PyErr)
    (h : getVectFromDiagonal m vert f = .error e) : e = .indexError := by
  rw [getVectFromDiagonal_def] at h
  cases hm : findMiddleVert (diagFaceVerts m f vert) (faceEdgesAvoiding m f vert) with
  | error e1 =>
    rw [hm, exceptBind_error] at h
    injection h with h'
    exact (h'.symm).trans (findMiddleVert_error_eq _ _ _ hm)
  | ok mid =>
    rw [hm, exceptBind_ok] at h
    cases ho : otherVertsLoop (faceEdgesAvoiding m f vert) mid with
    | error e2 =>
      rw [ho, exceptBind_error] at h
      injection h with h'
      exact (h'.symm).trans (otherVertsLoop_error_eq _ _ _ ho)
    | ok other =>
      rw [ho, exceptBind_ok] at h
      cases mid with
      | none => exact Except.noConfusion h
      | some w =>
        match other with
        | [] => exact Except.noConfusion h
        | [a] => exact Except.noConfusion h
        | a :: b :: t => exact Except.noConfusion h

theorem getPlaneFromDiagonal_def (m : BMesh) (vert f : Nat) :
    getPlaneFromDiagonal m vert f
      = catchTypeErrorWith (faceOf m f).normal
          (Except.bind (getVectFromDiagonal m vert f)
            (fun r => Except.bind (unpack3 r)
              (fun t => .ok (convert_vectors_to_plane t.1 t.2.1 t.2.2)))) := rfl

theorem findMiddleVert_single_hit (fv : List Nat) (e0 : Nat × Nat)
    (h : ∃ v ∈ fv, v = e0.1 ∨ v = e0.2) :
    findMiddleVert fv [e0] = .error .indexError := by
  induction fv with
  | nil => rcases h with ⟨v, hv, _⟩; exact absurd hv (List.not_mem_nil v)
  | cons a rest ih =>
    rw [findMiddleVert_cons_one]
    by_cases hc : a = e0.1 ∨ a = e0.2
    · rw [if_pos hc]
    · rw [if_neg hc]
      apply ih
      rcases h with ⟨v, hv, hve⟩
      rcases List.mem_cons.mp hv with rfl | hv'
      · exact absurd hve hc
      · exact ⟨v, hv', hve⟩

/-- C10: `getPlaneFromDiagonal` falls back to the face's own normal exactly
when `getVectFromDiagonal` returns `None` (whose tuple-unpacking raises the
caught `TypeError`); a successful triple is turned into a diagonal-triangle
plane, and any exception from `getVectFromDiagonal` — which can only be an
`IndexError` — propagates uncaught.  When the face has fewer than two edges
avoiding `vert` (`faceEdgesAvoiding` of length 0 or 1, e.g. a triangle
containing `vert`), the `face_edges[0]`/`face_edges[1]` subscripts raise
that `IndexError`. -/
theorem getPlaneFromDiagonal_fallback_and_indexError (m : BMesh) (vert f : Nat) :
    (getVectFromDiagonal m vert f = .ok none →
        getPlaneFromDiagonal m vert f = .ok (faceOf m f).normal)
    ∧ (∀ t, getVectFromDiagonal m vert f = .ok (some t) →
        getPlaneFromDiagonal m vert f = .ok (convert_vectors_to_plane t.1 t.2.1 t.2.2))
    ∧ (∀ e, getVectFromDiagonal m vert f = .error e →
        getPlaneFromDiagonal m vert f = .error e)
    ∧ (faceEdgesAvoiding m f vert = [] → diagFaceVerts m f vert ≠ [] →
        getVectFromDiagonal m vert f = .error .indexError)
    ∧ (∀ e0, faceEdgesAvoiding m f vert = [e0] →
        (∃ v ∈ diagFaceVerts m f vert, v = e0.1 ∨ v = e0.2) →
        getVectFromDiagonal m vert f = .error .indexError) := by
  refine ⟨?_, ?_, ?_, ?_, ?_⟩
  · intro h
    rw [getPlaneFromDiagonal_def, h, exceptBind_ok]
    rfl
  · intro t h
    rw [getPlaneFromDiagonal_def, h, exceptBind_ok]
    rfl
  · intro e h
    have he := getVectFromDiagonal_error_eq m vert f e h
    subst he
    rw [getPlaneFromDiagonal_def, h, exceptBind_error]
    rfl
  · intro hedges hverts
    rw [getVectFromDiagonal_def, hedges]
    cases hdv : diagFaceVerts m f vert with
    | nil => exact absurd hdv hverts
    | cons v rest => rw [findMiddleVert_cons_nil, exceptBind_error]
  · intro e0 hedges hhit
    rw [getVectFromDiagonal_def, hedges, findMiddleVert_single_hit _ _ hhit,
      exceptBind_error]

/-- Witness for C10: on the triangle mesh `mC10`, whose face has exactly one
edge avoiding vertex 0, `getVectFromDiagonal` raises `IndexError` and
`getPlaneFromDiagonal` propagates it (no face-normal fallback). -/
theorem getPlaneFromDiagonal_fallback_and_indexError_witness :
    getVectFromDiagonal mC10 0 0 = .error .indexError
    ∧ getPlaneFromDiagonal mC10 0 0 = .error .indexError := by
  have h := getPlaneFromDiagonal_fallback_and_indexError mC10 0 0
  have h5 := h.2.2.2.2 (1, 2) (by decide) ⟨1, by decide, by decide⟩
  exact ⟨h5, h.2.2.1 _ h5⟩

theorem getAnchorConnected_single_face (m : BMesh) (cursor : Vec3) (inv : Mat)
    (v face : Nat)
    (hface : get_face_closest_to_point m (getFaces m [v] true) cursor = .ok face) :
    getAnchorConnected m cursor inv [v]
      = Except.bind (getVectFromDiagonal m v face)
          (fun r => match r with
            | none => .error .typeError
            | some t => .ok (some t.2.1)) := by
  have h1 : getAnchorConnected m cursor inv [v]
      = Except.bind (get_face_closest_to_point m (getFaces m [v] true) cursor)
          (fun face => Except.bind (getVectFromDiagonal m v face)
            (fun r => match r with
              | none => .error .typeError
              | some t => .ok (some t.2.1))) := rfl
  rw [h1, hface, exceptBind_ok]

/-- C2 (code-bug evidence): the "connected" anchor strategy never consults
the inverse world matrix at all (first conjunct — its result is the same
for every matrix), and in its single-vertex branch it selects the nearest
face using the RAW cursor: on `mC2` (whose inverse world matrix `invC2`
maps the cursor `(0,1,1)` to the local-frame point `(1,1,0)`), the strategy
run on the raw cursor anchors at `(0,2,2)` while handing it the local-frame
cursor anchors at `(2,2,0)` — so the strategy acts on the untransformed
cursor, contradicting "transforms the cursor ... before use". -/
theorem getAnchorConnected_uses_raw_cursor :
    (∀ (m : BMesh) (cursor : Vec3) (inv inv' : Mat) (sel : List Nat),
        getAnchorConnected m cursor inv sel = getAnchorConnected m cursor inv' sel)
    ∧ invC2.apply cursorC2 = ⟨1, 1, 0⟩
    ∧ getAnchorConnected mC2 cursorC2 invC2 [0] = .ok (some ⟨0, 2, 2⟩)
    ∧ getAnchorConnected mC2 ⟨1, 1, 0⟩ invC2 [0] = .ok (some ⟨2, 2, 0⟩)
    ∧ ((⟨0, 2, 2⟩ : Vec3) ≠ ⟨2, 2, 0⟩) := by
  refine ⟨fun m c i i' s => rfl, ?_, ?_, ?_, by decide⟩
  · norm_num [Mat.apply, dot, invC2, cursorC2, Vec3.ext_iff]
  · have h0 : distSq (calc_center_median mC2 0) cursorC2 = 2 := by
      norm_num [distSq, normSq, dot, calc_center_median, faceOf, mC2, coOf, vsum,
        defaultFace, defaultVert, cursorC2]
    have h1 : distSq (calc_center_median mC2 1) cursorC2 = 0 := by
      norm_num [distSq, normSq, dot, calc_center_median, faceOf, mC2, coOf, vsum,
        defaultFace, defaultVert, cursorC2]
    have hface : get_face_closest_to_point mC2 (getFaces mC2 [0] true) cursorC2
        = .ok 1 := by
      have hf : getFaces mC2 [0] true = [0, 1] := by decide
      rw [hf]
      simp only [get_face_closest_to_point, closestFold, List.foldl_cons, List.foldl_nil]
      rw [h0, h1]
      norm_num
    rw [getAnchorConnected_single_face mC2 cursorC2 invC2 0 1 hface]
    decide
  · have h0 : distSq (calc_center_median mC2 0) ⟨1, 1, 0⟩ = 0 := by
      norm_num [distSq, normSq, dot, calc_center_median, faceOf, mC2, coOf, vsum,
        defaultFace, defaultVert]
    have h1 : distSq (calc_center_median mC2 1) ⟨1, 1, 0⟩ = 2 := by
      norm_num [distSq, normSq, dot, calc_center_median, faceOf, mC2, coOf, vsum,
        defaultFace, defaultVert]
    have hface : get_face_closest_to_point mC2 (getFaces mC2 [0] true) ⟨1, 1, 0⟩
        = .ok 0 := by
      have hf : getFaces mC2 [0] true = [0, 1] := by decide
      rw [hf]
      simp only [get_face_closest_to_point, closestFold, List.foldl_cons, List.foldl_nil]
      rw [h0, h1]
      norm_num
    rw [getAnchorConnected_single_face mC2 ⟨1, 1, 0⟩ invC2 0 0 hface]
    decide

theorem option_or_assoc {α : Type} (a b c : Option α) : (a.or b).or c = a.or (b.or c) := by
  cases a <;> rfl

/-- The innermost overwrite loop: writing every element failing `p` over an
accumulator keeps the LAST such element (or the accumulator when none). -/
theorem foldl_keepLast (p : Nat → Prop) [DecidablePred p] (l : List Nat)
    (acc : Option Nat) :
    l.foldl (fun a w => if p w then a else some w) acc
      = ((l.filter (fun w => ¬ p w)).getLast?).or acc := by
  induction l generalizing acc with
  | nil => simp
  | cons w rest ih =>
    rw [List.foldl_cons]
    by_cases hw : p w
    · rw [if_pos hw, ih]
      have hf : List.filter (fun w => decide (¬ p w)) (w :: rest)
          = rest.filter (fun w => decide (¬ p w)) := by
        simp [List.filter_cons, hw]
      rw [hf]
    · rw [if_neg hw, ih]
      have hf : List.filter (fun w => decide (¬ p w)) (w :: rest)
          = w :: rest.filter (fun w => decide (¬ p w)) := by
        simp [List.filter_cons, hw]
      rw [hf]
      cases hr : rest.filter (fun w => decide (¬ p w)) with
      | nil => simp
      | cons y ys =>
        rw [List.getLast?_cons_cons, List.getLast?_eq_getLast (y :: ys) (by simp)]
        rfl

theorem lastUnselScan_eq (m : BMesh) (selected : List Nat) (v : Nat) :
    lastUnselScan m selected v = lastUnselNeighborSpec m selected v := by
  show (linkEdges m v).foldl _ none = _
  rw [lastUnselNeighborSpec]
  generalize linkEdges m v = es
  have main : ∀ (es : List (Nat × Nat)) (acc : Option Nat),
      es.foldl
        (fun acc e =>
          [e.1, e.2].foldl (fun acc2 w => if w ∈ selected then acc2 else some w) acc)
        acc
      = (((es.flatMap (fun e => [e.1, e.2])).filter
          (fun w => ¬ w ∈ selected)).getLast?).or acc := by
    intro es
    induction es with
    | nil => intro acc; simp
    | cons e rest ih =>
      intro acc
      rw [List.foldl_cons, ih, List.flatMap_cons, List.filter_append, List.getLast?_append,
        option_or_assoc, foldl_keepLast (fun w => w ∈ selected)]
  rw [main es none]
  cases h : ((es.flatMap (fun e => [e.1, e.2])).filter (fun w => ¬ w ∈ selected)).getLast? <;>
    rfl

/-- C3 (amended): with a selection of any length other than one, the
"connected" anchor is (the position of) the LAST unselected endpoint in the
edge scan of the FIRST selected vertex whose scan meets an unselected
vertex, or `None` when no scan does. -/
theorem getAnchorConnected_multi_returns_last_scan (m : BMesh) (cursor : Vec3)
    (inv : Mat) (selected : List Nat) (h : selected.length ≠ 1) :
    getAnchorConnected m cursor inv selected
      = .ok (((selected.findSome? (lastUnselNeighborSpec m selected))).map (coOf m)) := by
  have h1 : getAnchorConnected m cursor inv selected
      = .ok (((selected.findSome? (fun v => lastUnselScan m selected v))).map (coOf m)) := by
    simp only [getAnchorConnected, if_neg h]
  rw [h1]
  have h2 : (fun v => lastUnselScan m selected v) = lastUnselNeighborSpec m selected :=
    funext (lastUnselScan_eq m selected)
  rw [h2]

/-- Witness for the amended C3 at the concrete mesh `mC3`. -/
theorem getAnchorConnected_multi_returns_last_scan_witness :
    (selectedIdx mC3).length ≠ 1
    ∧ getAnchorConnected mC3 0 idMat (selectedIdx mC3)
        = .ok ((((selectedIdx mC3).findSome?
            (lastUnselNeighborSpec mC3 (selectedIdx mC3)))).map (coOf mC3)) :=
  ⟨by decide,
   getAnchorConnected_multi_returns_last_scan mC3 0 idMat (selectedIdx mC3) (by decide)⟩

theorem closestFold_nil (m : BMesh) (point : Vec3) (acc : Option (ℚ × Nat)) :
    closestFold m point acc [] = acc := rfl

theorem closestFold_none_cons (m : BMesh) (point : Vec3) (g : Nat) (l : List Nat) :
    closestFold m point none (g :: l)
      = closestFold m point (some (distSq (calc_center_median m g) point, g)) l := rfl

theorem closestFold_cons (m : BMesh) (point : Vec3) (d0 : ℚ) (f0 g : Nat) (l : List Nat) :
    closestFold m point (some (d0, f0)) (g :: l)
      = closestFold m point
          (if distSq (calc_center_median m g) point < d0
            then some (distSq (calc_center_median m g) point, g)
            else some (d0, f0)) l := rfl

/-- Invariant of the running-minimum fold: starting from a held pair, the
fold either keeps it (when nothing beats it strictly) or ends at the first
strict improvement's final minimum, which is strictly below everything
before it and at most everything after it. -/
theorem closestFold_spec (m : BMesh) (point : Vec3) :
    ∀ (l : List Nat) (d0 : ℚ) (f0 : Nat),
      (closestFold m point (some (d0, f0)) l = some (d0, f0)
        ∧ ∀ g ∈ l, d0 ≤ distSq (calc_center_median m g) point)
      ∨ (∃ pre f post, l = pre ++ f :: post
          ∧ closestFold m point (some (d0, f0)) l
              = some (distSq (calc_center_median m f) point, f)
          ∧ distSq (calc_center_median m f) point < d0
          ∧ (∀ g ∈ pre, distSq (calc_center_median m f) point
              < distSq (calc_center_median m g) point)
          ∧ (∀ g ∈ post, distSq (calc_center_median m f) point
              ≤ distSq (calc_center_median m g) point)) := by
  intro l
  induction l with
  | nil => intro d0 f0; left; exact ⟨rfl, by simp⟩
  | cons g rest ih =>
    intro d0 f0
    by_cases hg : distSq (calc_center_median m g) point < d0
    · rcases ih (distSq (calc_center_median m g) point) g with
        ⟨heq, hall⟩ | ⟨pre, f, post, hsplit, heq, hlt, hpre, hpost⟩
      · right
        refine ⟨[], g, rest, by simp, ?_, hg, by simp, hall⟩
        rw [closestFold_cons, if_pos hg]
        exact heq
      · right
        refine ⟨g :: pre, f, post, by rw [hsplit]; rfl, ?_, lt_trans hlt hg, ?_, hpost⟩
        · rw [closestFold_cons, if_pos hg]
          exact heq
        · intro x hx
          rcases List.mem_cons.mp hx with rfl | hx'
          · exact hlt
          · exact hpre x hx'
    · rcases ih d0 f0 with ⟨heq, hall⟩ | ⟨pre, f, post, hsplit, heq, hlt, hpre, hpost⟩
      · left
        constructor
        · rw [closestFold_cons, if_neg hg]
          exact heq
        · intro x hx
          rcases List.mem_cons.mp hx with rfl | hx'
          · exact not_lt.mp hg
          · exact hall x hx'
      · right
        refine ⟨g :: pre, f, post, by rw [hsplit]; rfl, ?_, hlt, ?_, hpost⟩
        · rw [closestFold_cons, if_neg hg]
          exact heq
        · intro x hx
          rcases List.mem_cons.mp hx with rfl | hx'
          · exact lt_of_lt_of_le hlt (not_lt.mp hg)
          · exact hpre x hx'

/-- C6: on a non-empty face list, `get_face_closest_to_point` returns a face
whose centroid-to-query squared distance (equivalently, Euclidean distance)
is minimal over the list, and every face listed before the returned one is
strictly farther — so ties go to the first face in iteration order. -/
theorem get_face_closest_to_point_min_first (m : BMesh) (point : Vec3)
    (faces : List Nat) (h : faces ≠ []) :
    ∃ pre f post, faces = pre ++ f :: post
      ∧ get_face_closest_to_point m faces point = .ok f
      ∧ (∀ g ∈ pre, distSq (calc_center_median m f) point
          < distSq (calc_center_median m g) point)
      ∧ (∀ g ∈ faces, distSq (calc_center_median m f) point
          ≤ distSq (calc_center_median m g) point) := by
  match faces with
  | [] => exact absurd rfl h
  | g :: rest =>
    have hstart : get_face_closest_to_point m (g :: rest) point
        = match closestFold m point
            (some (distSq (calc_center_median m g) point, g)) rest with
          | none => .error .typeError
          | some (_, f) => .ok f := rfl
    rcases closestFold_spec m point rest (distSq (calc_center_median m g) point) g with
      ⟨heq, hall⟩ | ⟨pre, f, post, hsplit, heq, hlt, hpre, hpost⟩
    · refine ⟨[], g, rest, by simp, ?_, by simp, ?_⟩
      · rw [hstart, heq]
      · intro x hx
        rcases List.mem_cons.mp hx with rfl | hx'
        · exact le_refl _
        · exact hall x hx'
    · refine ⟨g :: pre, f, post, by rw [hsplit]; rfl, ?_, ?_, ?_⟩
      · rw [hstart, heq]
      · intro x hx
        rcases List.mem_cons.mp hx with rfl | hx'
        · exact hlt
        · exact hpre x hx'
      · intro x hx
        rcases List.mem_cons.mp hx with rfl | hx'
        · exact le_of_lt hlt
        · rw [hsplit] at hx'
          rcases List.mem_append.mp hx' with hxp | hxf
          · exact le_of_lt (hpre x hxp)
          · rcases List.mem_cons.mp hxf with rfl | hxq
            · exact le_refl _
            · exact hpost x hxq

/-- Witness for C6 on the tie mesh `mC6` (both centroids at squared
distance 1 from the origin). -/
theorem get_face_closest_to_point_min_first_witness :
    ∃ pre f post, ([0, 1] : List Nat) = pre ++ f :: post
      ∧ get_face_closest_to_point mC6 [0, 1] 0 = .ok f
      ∧ (∀ g ∈ pre, distSq (calc_center_median mC6 f) 0
          < distSq (calc_center_median mC6 g) 0)
      ∧ (∀ g ∈ ([0, 1] : List Nat), distSq (calc_center_median mC6 f) 0
          ≤ distSq (calc_center_median mC6 g) 0) :=
  get_face_closest_to_point_min_first mC6 0 [0, 1] (by decide)

@[simp] theorem vec3_add_zero (a : Vec3) : a + 0 = a := by ext <;> simp

@[simp] theorem vec3_zero_add (a : Vec3) : 0 + a = a := by ext <;> simp

@[simp] theorem vec3_smul_zero (s : ℚ) : s • (0 : Vec3) = 0 := by ext <;> simp

theorem mem_addUnique (acc : List Nat) (a x : Nat) :
    x ∈ addUnique acc a ↔ x ∈ acc ∨ x = a := by
  by_cases ha : a ∈ acc
  · rw [addUnique, if_pos ha]
    constructor
    · exact Or.inl
    · rintro (h | rfl)
      · exact h
      · exact ha
  · rw [addUnique, if_neg ha]
    simp

theorem nodup_addUnique (acc : List Nat) (a : Nat) (h : acc.Nodup) :
    (addUnique acc a).Nodup := by
  by_cases ha : a ∈ acc
  · rw [addUnique, if_pos ha]; exact h
  · rw [addUnique, if_neg ha]
    simp [List.nodup_append, h, ha]

theorem mem_foldl_addUnique (l acc : List Nat) (x : Nat) :
    x ∈ l.foldl addUnique acc ↔ x ∈ acc ∨ x ∈ l := by
  induction l generalizing acc with
  | nil => simp
  | cons a rest ih =>
    rw [List.foldl_cons, ih, mem_addUnique, List.mem_cons]
    tauto

theorem nodup_foldl_addUnique (l acc : List Nat) (h : acc.Nodup) :
    (l.foldl addUnique acc).Nodup := by
  induction l generalizing acc with
  | nil => exact h
  | cons a rest ih => exact ih _ (nodup_addUnique acc a h)

theorem mem_getFaces (m : BMesh) (sel : List Nat) (x : Nat) :
    x ∈ getFaces m sel true
      ↔ ∃ v ∈ sel, x ∈ (linkFaces m v).filter
          (fun f => 3 < (faceOf m f).verts.length) := by
  have main : ∀ (s acc : List Nat),
      x ∈ s.foldl
          (fun faces v =>
            ((linkFaces m v).filter (fun f => 3 < (faceOf m f).verts.length)).foldl
              addUnique faces)
          acc
        ↔ x ∈ acc ∨ ∃ v ∈ s, x ∈ (linkFaces m v).filter
            (fun f => 3 < (faceOf m f).verts.length) := by
    intro s
    induction s with
    | nil => intro acc; simp
    | cons v rest ih =>
      intro acc
      rw [List.foldl_cons, ih, mem_foldl_addUnique]
      simp only [List.mem_cons]
      constructor
      · rintro ((h | h) | ⟨w, hw, hx⟩)
        · exact Or.inl h
        · exact Or.inr ⟨v, Or.inl rfl, h⟩
        · exact Or.inr ⟨w, Or.inr hw, hx⟩
      · rintro (h | ⟨w, (rfl | hw), hx⟩)
        · exact Or.inl (Or.inl h)
        · exact Or.inl (Or.inr hx)
        · exact Or.inr ⟨w, hw, hx⟩
  show x ∈ sel.foldl _ [] ↔ _
  rw [main sel []]
  simp

theorem nodup_getFaces (m : BMesh) (sel : List Nat) : (getFaces m sel true).Nodup := by
  have main : ∀ (s acc : List Nat), acc.Nodup →
      (s.foldl
        (fun faces v =>
          ((linkFaces m v).filter (fun f => 3 < (faceOf m f).verts.length)).foldl
            addUnique faces)
        acc).Nodup := by
    intro s
    induction s with
    | nil => intro acc h; exact h
    | cons v rest ih => intro acc h; exact ih _ (nodup_foldl_addUnique _ _ h)
  exact main sel [] List.nodup_nil

theorem getFaces_nil_iff (m : BMesh) (sel : List Nat) :
    getFaces m sel true = []
      ↔ ∀ v ∈ sel, ∀ f ∈ linkFaces m v, (faceOf m f).verts.length ≤ 3 := by
  rw [List.eq_nil_iff_forall_not_mem]
  constructor
  · intro h v hv f hf
    by_contra hlen
    exact h f ((mem_getFaces m sel f).mpr
      ⟨v, hv, List.mem_filter.mpr ⟨hf, by simpa using not_le.mp hlen⟩⟩)
  · intro h x hx
    rcases (mem_getFaces m sel x).mp hx with ⟨v, hv, hxf⟩
    rcases List.mem_filter.mp hxf with ⟨hxl, hbig⟩
    exact absurd (h v hv x hxl) (by simpa using hbig)

theorem foldl_add_smul (nf : Nat → Vec3) (s : ℚ) (L : List Nat) (init : Vec3) :
    L.foldl (fun n f => n + s • nf f) init = init + s • vsum (L.map nf) := by
  induction L generalizing init with
  | nil => simp [vsum]
  | cons a rest ih =>
    rw [List.foldl_cons, ih, List.map_cons]
    show _ = init + s • (nf a + vsum (rest.map nf))
    ext <;> simp <;> ring

/-- C8 (amended): the "average" plane strategy raises `ZeroDivisionError`
exactly when no face connected to the selection has more than 3 vertices
(triangles never count), and otherwise accumulates the equally-weighted
average of the normals of the deduplicated connected `> 3`-vertex faces
(which the source then normalizes in place). -/
theorem getPlaneFromAverage_spec (m : BMesh) (selected : List Nat) :
    (getPlaneFromAverage m selected = .error .zeroDivisionError
      ↔ ∀ v ∈ selected, ∀ f ∈ linkFaces m v, (faceOf m f).verts.length ≤ 3)
    ∧ (getFaces m selected true ≠ [] →
        ∃ L : List Nat, L.Nodup
          ∧ (∀ f, f ∈ L ↔ 3 < (faceOf m f).verts.length
              ∧ ∃ v ∈ selected, f ∈ linkFaces m v)
          ∧ getPlaneFromAverage m selected
              = .ok ((1 / (L.length : ℚ))
                  • vsum (L.map (fun f => (faceOf m f).normal)))) := by
  constructor
  · have herr : getPlaneFromAverage m selected = .error .zeroDivisionError
        ↔ getFaces m selected true = [] := by
      unfold getPlaneFromAverage
      by_cases hf : (getFaces m selected true).length = 0
      · simp [hf, List.length_eq_zero.mp hf]
      · simp only [if_neg hf]
        constructor
        · intro h; exact Except.noConfusion h
        · intro h; exact absurd (by rw [h]; rfl) hf
    rw [herr, getFaces_nil_iff]
  · intro hne
    refine ⟨getFaces m selected true, nodup_getFaces m selected, ?_, ?_⟩
    · intro f
      rw [mem_getFaces]
      simp only [List.mem_filter, decide_eq_true_eq]
      tauto
    · unfold getPlaneFromAverage
      rw [if_neg (fun h => hne (List.length_eq_zero.mp h)), foldl_add_smul, vec3_zero_add]

/-- Witness for the amended C8 on the quad mesh `mC8q`: the connected quad
is a candidate, and the strategy returns the (pre-normalization) average of
the candidate normals. -/
theorem getPlaneFromAverage_spec_witness :
    getFaces mC8q (selectedIdx mC8q) true ≠ []
    ∧ ∃ L : List Nat, L.Nodup
        ∧ (∀ f, f ∈ L ↔ 3 < (faceOf mC8q f).verts.length
            ∧ ∃ v ∈ selectedIdx mC8q, f ∈ linkFaces mC8q v)
        ∧ getPlaneFromAverage mC8q (selectedIdx mC8q)
            = .ok ((1 / (L.length : ℚ))
                • vsum (L.map (fun f => (faceOf mC8q f).normal))) :=
  ⟨by decide, (getPlaneFromAverage_spec mC8q (selectedIdx mC8q)).2 (by decide)⟩

theorem map_select_mapIdx (l : List BMVert) (g : Nat → BMVert → BMVert)
    (h : ∀ i v, (g i v).select = v.select) :
    (l.mapIdx g).map BMVert.select = l.map BMVert.select := by
  induction l generalizing g with
  | nil => simp
  | cons v rest ih =>
    rw [List.mapIdx_cons, List.map_cons, List.map_cons, h 0 v,
      ih (fun i => g (i + 1)) (fun i w => h (i + 1) w)]

theorem writeVerts_edges (m : BMesh) (t : List Nat) (a p : Vec3) :
    (writeVerts m t a p).edges = m.edges := rfl

theorem writeVerts_faces (m : BMesh) (t : List Nat) (a p : Vec3) :
    (writeVerts m t a p).faces = m.faces := rfl

theorem writeVerts_select (m : BMesh) (t : List Nat) (a p : Vec3) :
    (writeVerts m t a p).verts.map BMVert.select = m.verts.map BMVert.select := by
  show (m.verts.mapIdx _).map BMVert.select = _
  exact map_select_mapIdx m.verts _ (by
    intro i v
    by_cases hi : i ∈ t
    · rw [if_pos hi]
    · rw [if_neg hi])

theorem individualStep_frame (cfg : Config) (cursor : Vec3) (inv : Mat) (m0 : BMesh)
    (v : Nat) (m1 : BMesh) (h : individualStep cfg cursor inv m0 v = .ok m1) :
    m1.edges = m0.edges ∧ m1.faces = m0.faces
      ∧ m1.verts.map BMVert.select = m0.verts.map BMVert.select := by
  have hdef : individualStep cfg cursor inv m0 v
      = Except.bind (getPlane cfg m0 cursor inv [v]) (fun plane =>
          Except.bind (getAnchor cfg m0 cursor inv [v]) (fun anchorOpt =>
            match anchorOpt with
            | none => .error .typeError
            | some anchor => .ok (writeVerts m0 [v] anchor plane))) := rfl
  rw [hdef] at h
  cases hp : getPlane cfg m0 cursor inv [v] with
  | error e =>
    rw [hp, exceptBind_error] at h
    exact Except.noConfusion h
  | ok plane =>
    rw [hp, exceptBind_ok] at h
    cases ha : getAnchor cfg m0 cursor inv [v] with
    | error e =>
      rw [ha, exceptBind_error] at h
      exact Except.noConfusion h
    | ok aOpt =>
      rw [ha, exceptBind_ok] at h
      cases aOpt with
      | none => exact Except.noConfusion h
      | some anchor =>
        injection h with h'
        subst h'
        exact ⟨rfl, rfl, writeVerts_select m0 [v] anchor plane⟩

theorem foldlM_individualStep_frame (cfg : Config) (cursor : Vec3) (inv : Mat)
    (l : List Nat) :
    ∀ (m0 m1 : BMesh), l.foldlM (individualStep cfg cursor inv) m0 = .ok m1 →
      m1.edges = m0.edges ∧ m1.faces = m0.faces
        ∧ m1.verts.map BMVert.select = m0.verts.map BMVert.select := by
  induction l with
  | nil =>
    intro m0 m1 h
    injection h with h'
    subst h'
    exact ⟨rfl, rfl, rfl⟩
  | cons v rest ih =>
    intro m0 m1 h
    have hdef : (v :: rest).foldlM (individualStep cfg cursor inv) m0
        = Except.bind (individualStep cfg cursor inv m0 v)
            (fun m' => rest.foldlM (individualStep cfg cursor inv) m') := rfl
    rw [hdef] at h
    cases hs : individualStep cfg cursor inv m0 v with
    | error e =>
      rw [hs, exceptBind_error] at h
      exact Except.noConfusion h
    | ok m' =>
      rw [hs, exceptBind_ok] at h
      obtain ⟨he1, hf1, hs1⟩ := individualStep_frame cfg cursor inv m0 v m' hs
      obtain ⟨he2, hf2, hs2⟩ := ih m' m1 h
      exact ⟨he2.trans he1, hf2.trans hf1, hs2.trans hs1⟩

theorem forcedCfg_iteration_mode (cfg : Config) (m : BMesh) :
    (forcedCfg cfg m).iteration_mode = cfg.iteration_mode := by
  unfold forcedCfg
  split <;> rfl

theorem forcedCfg_pos (cfg : Config) (m : BMesh)
    (h : (selectedIdx m).length = 1 ∨ cfg.iteration_mode = .individual) :
    forcedCfg cfg m = ⟨.connected, .connected, cfg.iteration_mode⟩ := by
  unfold forcedCfg
  rw [if_pos h]

theorem forcedCfg_neg (cfg : Config) (m : BMesh)
    (h : ¬((selectedIdx m).length = 1 ∨ cfg.iteration_mode = .individual)) :
    forcedCfg cfg m = cfg := by
  unfold forcedCfg
  rw [if_neg h]

theorem execute_def (cfg : Config) (m : BMesh) (cursor : Vec3) (inv : Mat) :
    execute cfg m cursor inv
      = (if selectedIdx m = [] then
          .ok ⟨m, forcedCfg cfg m, .cancelled, some "No vertices selected"⟩
        else
          match (forcedCfg cfg m).iteration_mode with
          | .grouped =>
            Except.bind (getPlane (forcedCfg cfg m) m cursor inv (selectedIdx m))
              (fun plane =>
                Except.bind (getAnchor (forcedCfg cfg m) m cursor inv (selectedIdx m))
                  (fun anchorOpt =>
                    match anchorOpt with
                    | none => .error .typeError
                    | some anchor =>
                      .ok ⟨writeVerts m (selectedIdx m) anchor plane, forcedCfg cfg m,
                        .finished, none⟩))
          | .individual =>
            Except.bind
              ((sort_verts_distance_from_point m (selectedIdx m)
                  (Mat.apply inv cursor)).foldlM
                (individualStep (forcedCfg cfg m) cursor inv) m)
              (fun mFinal => .ok ⟨mFinal, forcedCfg cfg m, .finished, none⟩)) := rfl

/-- C9 (amended): a successful invocation never changes the iteration mode;
it rewrites the stored plane-source/anchor settings to "connected" exactly
when the selection has one vertex or the mode is "individual" and leaves
them untouched otherwise; and the mesh's edges, faces, and selection flags
are unchanged — vertex coordinates are the only other mutated state. -/
theorem execute_config_frame (cfg : Config) (m : BMesh) (cursor : Vec3) (inv : Mat)
    (out : ExecOut) (h : execute cfg m cursor inv = .ok out) :
    out.cfg.iteration_mode = cfg.iteration_mode
    ∧ (((selectedIdx m).length = 1 ∨ cfg.iteration_mode = .individual) →
        out.cfg = ⟨.connected, .connected, cfg.iteration_mode⟩)
    ∧ (¬((selectedIdx m).length = 1 ∨ cfg.iteration_mode = .individual) →
        out.cfg = cfg)
    ∧ out.mesh.edges = m.edges
    ∧ out.mesh.faces = m.faces
    ∧ out.mesh.verts.map BMVert.select = m.verts.map BMVert.select := by
  have main : out.cfg = forcedCfg cfg m
      ∧ out.mesh.edges = m.edges ∧ out.mesh.faces = m.faces
      ∧ out.mesh.verts.map BMVert.select = m.verts.map BMVert.select := by
    rw [execute_def] at h
    by_cases hsel : selectedIdx m = []
    · rw [if_pos hsel] at h
      injection h with h'
      subst h'
      exact ⟨rfl, rfl, rfl, rfl⟩
    · rw [if_neg hsel] at h
      revert h
      cases hmode : (forcedCfg cfg m).iteration_mode with
      | grouped =>
        intro h
        cases hp : getPlane (forcedCfg cfg m) m cursor inv (selectedIdx m) with
        | error e =>
          rw [hp, exceptBind_error] at h
          exact Except.noConfusion h
        | ok plane =>
          rw [hp, exceptBind_ok] at h
          cases ha : getAnchor (forcedCfg cfg m) m cursor inv (selectedIdx m) with
          | error e =>
            rw [ha, exceptBind_error] at h
            exact Except.noConfusion h
          | ok aOpt =>
            rw [ha, exceptBind_ok] at h
            cases aOpt with
            | none => exact Except.noConfusion h
            | some anchor =>
              injection h with h'
              subst h'
              exact ⟨rfl, rfl, rfl, writeVerts_select _ _ _ _⟩
      | individual =>
        intro h
        cases hf : (sort_verts_distance_from_point m (selectedIdx m)
            (Mat.apply inv cursor)).foldlM
            (individualStep (forcedCfg cfg m) cursor inv) m with
        | error e =>
          rw [hf, exceptBind_error] at h
          exact Except.noConfusion h
        | ok mFinal =>
          rw [hf, exceptBind_ok] at h
          injection h with h'
          subst h'
          obtain ⟨he, hfc, hs⟩ := foldlM_individualStep_frame _ _ _ _ m mFinal hf
          exact ⟨rfl, he, hfc, hs⟩
  obtain ⟨hcfg, he, hf, hs⟩ := main
  refine ⟨?_, ?_, ?_, he, hf, hs⟩
  · rw [hcfg, forcedCfg_iteration_mode]
  · intro hc
    rw [hcfg, forcedCfg_pos cfg m hc]
  · intro hc
    rw [hcfg, forcedCfg_neg cfg m hc]

/-- Witness for the amended C9: a grouped invocation without a single-vertex
selection leaves the configuration exactly as supplied. -/
theorem execute_config_frame_witness :
    execute ⟨.average, .average, .grouped⟩ mNoneSelected 0 idMat
      = .ok ⟨mNoneSelected, ⟨.average, .average, .grouped⟩, .cancelled,
          some "No vertices selected"⟩
    ∧ (⟨mNoneSelected, ⟨.average, .average, .grouped⟩, .cancelled,
        some "No vertices selected"⟩ : ExecOut).cfg = ⟨.average, .average, .grouped⟩ := by
  have hexec : execute ⟨.average, .average, .grouped⟩ mNoneSelected 0 idMat
      = .ok ⟨mNoneSelected, ⟨.average, .average, .grouped⟩, .cancelled,
          some "No vertices selected"⟩ := by decide
  exact ⟨hexec, (execute_config_frame _ _ _ _ _ hexec).2.2.1 (by decide)⟩
